import Mathlib

/-!
Shallow embedding of the client-side image transformation pipeline of the
Gemini Image Studio repository: the edit history state machine of the
`ImageEditor` component, the pixel filter engine (`applyFilterToImage`),
the resampler (`resizeImageBase64`), the crop apply path, the logo
compositor geometry (`handleApplyLogoOverlay`), and the batch mockup
loop (`handleGenerateMockups`).

Browser primitives (canvas `drawImage`, image decode, the remote
generative gateway) are external collaborators: they appear as explicit
oracle parameters (`draw`, `render`, `gen`) or as boolean environment
flags, exactly at the points where the source awaits them.  Base64
payloads are identified with the rasters they encode: an `ImageState`
carries the decoded pixel list directly.
-/

/-- One RGBA pixel as stored in a `Uint8ClampedArray` (each channel a
byte value `0..255`). -/
structure RGBA where
  r : Nat
  g : Nat
  b : Nat
  a : Nat
deriving DecidableEq, Repr

/-- The `ImageState` record of `ImageEditor`: `{ base64, mimeType }`,
with the base64 payload identified with the raster it encodes. -/
structure ImageState where
  data : List RGBA
  mimeType : String
deriving DecidableEq, Repr

/-- A `PixelCrop` rectangle from `react-image-crop` (numbers in pixels). -/
structure PixelCrop where
  x : ℚ
  y : ℚ
  width : ℚ
  height : ℚ
deriving DecidableEq, Repr

/-- The `useState` hooks of the history-enabled `ImageEditor` component,
gathered into one record.  `isLoading` is omitted: every handler sets it
on entry and clears it before returning, so it is `false` in every state
an atomic operation observes. -/
structure EditorState where
  imageHistory : List ImageState
  historyIndex : ℤ
  prompt : String
  error : Option String
  selectedFilter : Option String
  outputResolution : String
  crop : Option PixelCrop
  completedCrop : Option PixelCrop
  isCropping : Bool
  imageToCropSrc : Option String
  imageToCropMimeType : Option String
  logoBase64 : Option String
  logoMimeType : Option String
  showLogoOverlay : Bool
  logoScale : ℚ
  logoPosition : ℚ × ℚ
  isDraggingLogo : Bool
deriving DecidableEq, Repr

/-- The initial hook values: empty history, index `-1`, no error, no
logo, scale `0.3`, position `(50, 50)`. -/
def initialState : EditorState :=
  { imageHistory := []
    historyIndex := -1
    prompt := ""
    error := none
    selectedFilter := none
    outputResolution := "original"
    crop := none
    completedCrop := none
    isCropping := false
    imageToCropSrc := none
    imageToCropMimeType := none
    logoBase64 := none
    logoMimeType := none
    showLogoOverlay := false
    logoScale := 3/10
    logoPosition := (50, 50)
    isDraggingLogo := false }

/-- `currentImageState = imageHistory[historyIndex]` (undefined when the
index is `-1`). -/
def currentImage (s : EditorState) : Option ImageState :=
  if s.historyIndex < 0 then none
  else s.imageHistory.get? s.historyIndex.toNat

/-- `resetLogoOverlayStates`: clear the logo payload, hide the overlay,
reset scale to `0.3`, position to `(50, 50)`, stop dragging. -/
def resetLogoOverlayStates (s : EditorState) : EditorState :=
  { s with
    logoBase64 := none
    logoMimeType := none
    showLogoOverlay := false
    logoScale := 3/10
    logoPosition := (50, 50)
    isDraggingLogo := false }

/-- `resetEditingStates`: clear the prompt, the selected filter and the
output resolution, then `resetLogoOverlayStates`. -/
def resetEditingStates (s : EditorState) : EditorState :=
  resetLogoOverlayStates
    { s with
      prompt := ""
      selectedFilter := none
      outputResolution := "original" }

/-- `pushToHistory(base64, mimeType)`: truncate the history to
`slice(0, historyIndex + 1)`, append the new entry, and increment the
index. -/
def pushToHistory (s : EditorState) (img : ImageState) : EditorState :=
  { s with
    imageHistory := s.imageHistory.take (s.historyIndex + 1).toNat ++ [img]
    historyIndex := s.historyIndex + 1 }

/-- `handleUndo`: decrement the index when `historyIndex > 0`, clearing
the error and the transient editing state; otherwise do nothing. -/
def handleUndo (s : EditorState) : EditorState :=
  if 0 < s.historyIndex then
    resetEditingStates { s with historyIndex := s.historyIndex - 1, error := none }
  else s

/-- `handleRedo`: increment the index when
`historyIndex < imageHistory.length - 1`, clearing the error and the
transient editing state; otherwise do nothing. -/
def handleRedo (s : EditorState) : EditorState :=
  if s.historyIndex < (s.imageHistory.length : ℤ) - 1 then
    resetEditingStates { s with historyIndex := s.historyIndex + 1, error := none }
  else s

/-- The spec's history-position invariant: position in `[0, length-1]`
when the history is non-empty, `-1` with an empty history otherwise. -/
def HistoryInv (s : EditorState) : Prop :=
  (s.imageHistory = [] ∧ s.historyIndex = -1) ∨
  (s.imageHistory ≠ [] ∧ 0 ≤ s.historyIndex ∧
    s.historyIndex ≤ (s.imageHistory.length : ℤ) - 1)

instance (s : EditorState) : Decidable (HistoryInv s) := by
  unfold HistoryInv; infer_instance

/-- `handleImageUpload`: push the uploaded asset, reset the editing
state, clear the error. -/
def handleImageUpload (s : EditorState) (img : ImageState) : EditorState :=
  { resetEditingStates (pushToHistory s img) with error := none }

/-- Two sample assets used by concrete witnesses below. -/
def imgA : ImageState := { data := [⟨1, 2, 3, 255⟩], mimeType := "image/png" }

def imgB : ImageState := { data := [⟨4, 5, 6, 255⟩], mimeType := "image/png" }

def imgC : ImageState := { data := [⟨7, 8, 9, 255⟩], mimeType := "image/png" }

/-- Claim C1: `push` appends the new entry after truncating all entries
strictly beyond the current position and sets the position to the new
last index; after `push(a); push(b); undo(); push(c)` the history is
exactly `[a, c]` and `b` is unreachable via `redo` (which is a no-op
there). -/
theorem claim_C1_push_semantics :
    (∀ (s : EditorState) (img : ImageState), HistoryInv s →
      (pushToHistory s img).imageHistory =
        s.imageHistory.take (s.historyIndex + 1).toNat ++ [img] ∧
      ((pushToHistory s img).historyIndex =
        ((pushToHistory s img).imageHistory.length : ℤ) - 1)) ∧
    (∀ a b c : ImageState,
      (pushToHistory (handleUndo (pushToHistory (pushToHistory initialState a) b)) c).imageHistory
        = [a, c] ∧
      handleRedo (pushToHistory (handleUndo (pushToHistory (pushToHistory initialState a) b)) c)
        = pushToHistory (handleUndo (pushToHistory (pushToHistory initialState a) b)) c) := by
  constructor
  · intro s img hinv
    refine ⟨rfl, ?_⟩
    simp only [pushToHistory, List.length_append, List.length_take, List.length_cons,
      List.length_nil]
    rcases hinv with ⟨hemp, hidx⟩ | ⟨hne, h0, h1⟩
    · have hlen := congrArg List.length hemp
      simp only [List.length_nil] at hlen
      omega
    · have hlen : 0 < s.imageHistory.length := List.length_pos.mpr hne
      omega
  · intro a b c
    constructor
    · rfl
    · rfl

/-- Witness for C1 at a concrete state satisfying the invariant. -/
theorem claim_C1_witness :
    HistoryInv { initialState with imageHistory := [imgA], historyIndex := 0 } ∧
    (pushToHistory { initialState with imageHistory := [imgA], historyIndex := 0 } imgB).historyIndex
      = ((pushToHistory { initialState with imageHistory := [imgA], historyIndex := 0 } imgB).imageHistory.length : ℤ) - 1 := by
  have h : HistoryInv { initialState with imageHistory := [imgA], historyIndex := 0 } := by
    right; simp [initialState]
  exact ⟨h, ((claim_C1_push_semantics.1 _ imgB h).2)⟩

/-- Claim C5: the history-position invariant holds initially and is
preserved by `push`, `undo` and `redo`; `undo` decrements only when the
position is positive and is otherwise a no-op, `redo` increments only
below the last index and is otherwise a no-op. -/
theorem claim_C5_invariant :
    HistoryInv initialState ∧
    (∀ (s : EditorState) (img : ImageState), HistoryInv s → HistoryInv (pushToHistory s img)) ∧
    (∀ s : EditorState, HistoryInv s → HistoryInv (handleUndo s)) ∧
    (∀ s : EditorState, HistoryInv s → HistoryInv (handleRedo s)) ∧
    (∀ s : EditorState, ¬ 0 < s.historyIndex → handleUndo s = s) ∧
    (∀ s : EditorState, 0 < s.historyIndex →
      (handleUndo s).historyIndex = s.historyIndex - 1) ∧
    (∀ s : EditorState, ¬ s.historyIndex < (s.imageHistory.length : ℤ) - 1 →
      handleRedo s = s) ∧
    (∀ s : EditorState, s.historyIndex < (s.imageHistory.length : ℤ) - 1 →
      (handleRedo s).historyIndex = s.historyIndex + 1) := by
  refine ⟨Or.inl ⟨rfl, rfl⟩, ?_, ?_, ?_, ?_, ?_, ?_, ?_⟩
  · intro s img hinv
    right
    constructor
    · simp [pushToHistory]
    · simp only [pushToHistory, List.length_append, List.length_take, List.length_cons,
        List.length_nil]
      rcases hinv with ⟨hemp, hidx⟩ | ⟨hne, h0, h1⟩
      · have hlen := congrArg List.length hemp
        simp only [List.length_nil] at hlen
        omega
      · have hlen : 0 < s.imageHistory.length := List.length_pos.mpr hne
        omega
  · intro s hinv
    unfold handleUndo
    split
    · rcases hinv with ⟨_, hidx⟩ | ⟨hne, h0, h1⟩
      · omega
      · right
        refine ⟨by simpa [resetEditingStates, resetLogoOverlayStates] using hne, ?_, ?_⟩ <;>
          simp [resetEditingStates, resetLogoOverlayStates] <;> omega
    · exact hinv
  · intro s hinv
    unfold handleRedo
    split
    · rcases hinv with ⟨hemp, hidx⟩ | ⟨hne, h0, h1⟩
      · rename_i hlt
        rw [hemp, hidx] at hlt
        simp at hlt
      · right
        refine ⟨by simpa [resetEditingStates, resetLogoOverlayStates] using hne, ?_, ?_⟩ <;>
          simp [resetEditingStates, resetLogoOverlayStates] <;> omega
    · exact hinv
  · intro s h; simp [handleUndo, h]
  · intro s h; simp [handleUndo, h, resetEditingStates, resetLogoOverlayStates]
  · intro s h; simp [handleRedo, h]
  · intro s h; simp [handleRedo, h, resetEditingStates, resetLogoOverlayStates]

/-- Witness for C5 at concrete states. -/
theorem claim_C5_witness :
    HistoryInv (pushToHistory initialState imgA) ∧
    HistoryInv (handleUndo (pushToHistory initialState imgA)) ∧
    handleUndo (pushToHistory initialState imgA) = pushToHistory initialState imgA := by
  refine ⟨?_, ?_, ?_⟩
  · exact claim_C5_invariant.2.1 initialState imgA claim_C5_invariant.1
  · exact claim_C5_invariant.2.2.1 _ (claim_C5_invariant.2.1 initialState imgA claim_C5_invariant.1)
  · exact claim_C5_invariant.2.2.2.2.1 _ (by decide)

/-! ## Pixel filter engine (`applyFilterToImage`) -/

/-- Rounding applied when a JS number is stored into a
`Uint8ClampedArray` slot: round to nearest, ties to even. -/
def roundTiesEven (q : ℚ) : ℤ :=
  if q - ⌊q⌋ < 1/2 then ⌊q⌋
  else if 1/2 < q - ⌊q⌋ then ⌊q⌋ + 1
  else if 2 ∣ ⌊q⌋ then ⌊q⌋ else ⌊q⌋ + 1

/-- Store a JS number into a `Uint8ClampedArray` slot: clamp to
`[0, 255]`, round ties-to-even. -/
def clampedByte (q : ℚ) : ℕ :=
  if q ≤ 0 then 0 else if 255 ≤ q then 255 else (roundTiesEven q).toNat

/-- The `switch (filterName)` body of the per-pixel loop: grayscale is
the unweighted mean, sepia the clamped weighted sums, invert is
`255 - channel`; any other name leaves the pixel unchanged (the
`default: break` case).  Alpha is never written. -/
def transformPixel (filterName : String) (p : RGBA) : RGBA :=
  if filterName = "grayscale" then
    let avg : ℚ := ((p.r : ℚ) + p.g + p.b) / 3
    ⟨clampedByte avg, clampedByte avg, clampedByte avg, p.a⟩
  else if filterName = "sepia" then
    ⟨clampedByte (min 255 ((p.r : ℚ) * (393/1000) + p.g * (769/1000) + p.b * (189/1000))),
     clampedByte (min 255 ((p.r : ℚ) * (349/1000) + p.g * (686/1000) + p.b * (168/1000))),
     clampedByte (min 255 ((p.r : ℚ) * (272/1000) + p.g * (534/1000) + p.b * (131/1000))),
     p.a⟩
  else if filterName = "invert" then
    ⟨255 - p.r, 255 - p.g, 255 - p.b, p.a⟩
  else p

/-- The raster transform of `applyFilterToImage`: when the name is
`none` the pixel loop is skipped entirely (`if (filterName !== 'none')`),
otherwise every pixel goes through `transformPixel`. -/
def applyFilterList (filterName : String) (px : List RGBA) : List RGBA :=
  if filterName = "none" then px else px.map (transformPixel filterName)

/-- `applyFilterToImage(filterName)`: with no current image only an
error is set; otherwise the filtered raster is pushed as a new history
entry, the filter is recorded as selected, and the transient logo
overlay state is reset. -/
def applyFilterToImage (s : EditorState) (filterName : String) : EditorState :=
  match currentImage s with
  | none => { s with error := some "No image to apply filter to." }
  | some img =>
    let newImg : ImageState :=
      { data := applyFilterList filterName img.data, mimeType := img.mimeType }
    let s1 := pushToHistory { s with error := none } newImg
    resetLogoOverlayStates { s1 with selectedFilter := some filterName }

/-- `transformPixel` at the name `invert` computes `255 - channel` on
the color channels and keeps alpha. -/
theorem transformPixel_invert (r g b a : ℕ) :
    transformPixel "invert" ⟨r, g, b, a⟩ = ⟨255 - r, 255 - g, 255 - b, a⟩ := rfl

/-- A single in-range pixel is restored by a double inversion. -/
theorem transformPixel_invert_invert (p : RGBA)
    (h : p.r ≤ 255 ∧ p.g ≤ 255 ∧ p.b ≤ 255) :
    transformPixel "invert" (transformPixel "invert" p) = p := by
  cases p with
  | mk r g b a =>
    rw [transformPixel_invert, transformPixel_invert, RGBA.mk.injEq]
    obtain ⟨h1, h2, h3⟩ := h
    simp only at h1 h2 h3 ⊢
    refine ⟨by omega, by omega, by omega, trivial⟩

/-- The invert path of `applyFilterList` is the per-pixel map. -/
theorem applyFilterList_invert (px : List RGBA) :
    applyFilterList "invert" px = px.map (transformPixel "invert") := by
  rw [applyFilterList, if_neg (by decide)]

/-- Claim C6: the invert filter is an involution on every raster whose
channel values lie in `[0, 255]`, alpha untouched. -/
theorem claim_C6_invert_involution (px : List RGBA)
    (hb : ∀ p ∈ px, p.r ≤ 255 ∧ p.g ≤ 255 ∧ p.b ≤ 255) :
    applyFilterList "invert" (applyFilterList "invert" px) = px ∧
    ∀ p ∈ px, (transformPixel "invert" p).a = p.a := by
  constructor
  · rw [applyFilterList_invert, applyFilterList_invert]
    induction px with
    | nil => rfl
    | cons p rest ih =>
      simp only [List.map_cons, List.cons.injEq]
      refine ⟨transformPixel_invert_invert p (hb p (by simp)), ?_⟩
      exact ih fun q hq => hb q (by simp [hq])
  · intro p hp
    cases p with
    | mk r g b a => rw [transformPixel_invert]

/-- Witness for C6 on a concrete two-pixel raster. -/
theorem claim_C6_witness :
    applyFilterList "invert" (applyFilterList "invert" [⟨0, 128, 255, 7⟩, ⟨10, 20, 30, 40⟩])
      = [⟨0, 128, 255, 7⟩, ⟨10, 20, 30, 40⟩] :=
  (claim_C6_invert_involution [⟨0, 128, 255, 7⟩, ⟨10, 20, 30, 40⟩] (by decide)).1

/-- Claim C8: the `none` filter leaves every pixel value unchanged, yet
`applyFilterToImage "none"` still commits a new history entry: the
history gains an appended entry equal to the current one, the position
advances, and the new current entry has the same pixels. -/
theorem claim_C8_filter_none :
    (∀ px : List RGBA, applyFilterList "none" px = px) ∧
    (∀ (s : EditorState) (img : ImageState), currentImage s = some img →
      (applyFilterToImage s "none").imageHistory
        = s.imageHistory.take (s.historyIndex + 1).toNat ++ [img] ∧
      (applyFilterToImage s "none").historyIndex = s.historyIndex + 1 ∧
      currentImage (applyFilterToImage s "none") = some img) := by
  constructor
  · intro px; simp [applyFilterList]
  · intro s img hcur
    have hneg : ¬ s.historyIndex < 0 := by
      intro h
      rw [currentImage, if_pos h] at hcur
      exact Option.noConfusion hcur
    have hget : s.imageHistory.get? s.historyIndex.toNat = some img := by
      rw [currentImage, if_neg hneg] at hcur
      exact hcur
    have hlt : s.historyIndex.toNat < s.imageHistory.length := by
      obtain ⟨h, -⟩ := List.get?_eq_some.mp hget
      exact h
    have hfilter : applyFilterList "none" img.data = img.data := by simp [applyFilterList]
    have heq : applyFilterToImage s "none"
        = resetLogoOverlayStates
            { pushToHistory { s with error := none } img with selectedFilter := some "none" } := by
      rw [applyFilterToImage, hcur]
      simp only [hfilter]
    rw [heq]
    have htake : (s.imageHistory.take (s.historyIndex + 1).toNat).length
        = (s.historyIndex + 1).toNat := by
      rw [List.length_take]
      omega
    refine ⟨rfl, rfl, ?_⟩
    rw [currentImage]
    rw [if_neg (by simp [resetLogoOverlayStates, pushToHistory]; omega)]
    simp only [resetLogoOverlayStates, pushToHistory]
    rw [List.get?_append_right (by rw [htake])]
    rw [htake]
    have : (s.historyIndex + 1).toNat - (s.historyIndex + 1).toNat = 0 := by omega
    rw [this]
    rfl

/-- Witness for C8 at a concrete one-entry state. -/
theorem claim_C8_witness :
    currentImage { initialState with imageHistory := [imgA], historyIndex := 0 } = some imgA ∧
    (applyFilterToImage { initialState with imageHistory := [imgA], historyIndex := 0 } "none").imageHistory
      = [imgA, imgA] := by
  have h : currentImage { initialState with imageHistory := [imgA], historyIndex := 0 }
      = some imgA := rfl
  refine ⟨h, ?_⟩
  have := (claim_C8_filter_none.2 _ imgA h).1
  rw [this]
  rfl

/-! ## Crop apply path (`handleApplyCrop` and its Apply Crop button) -/

/-- The Apply Crop button's enabled condition: the negation of
`disabled={!completedCrop?.width || !completedCrop?.height}` — a crop
rectangle exists and neither its width nor its height is the falsy 0. -/
def applyCropEnabled (s : EditorState) : Bool :=
  match s.completedCrop with
  | none => false
  | some c => decide (c.width ≠ 0) && decide (c.height ≠ 0)

/-- `handleApplyCrop`: with a completed crop present, render the crop
(via `canvasPreview` + `fileToBase64`, summarised by the `render`
oracle), push the result, leave cropping mode and reset the editing
state; a render failure only sets the error; with no completed crop only
the guidance error is set.  (The `imgRef`/`previewCanvasRef` elements
are present whenever the crop dialog is open.) -/
def handleApplyCrop (s : EditorState) (render : Except String ImageState) : EditorState :=
  match s.completedCrop with
  | some _ =>
    match render with
    | .ok img =>
      resetEditingStates
        { pushToHistory s img with
          isCropping := false
          imageToCropSrc := none
          imageToCropMimeType := none
          completedCrop := none
          crop := none }
    | .error e => { s with error := some ("Failed to process cropped image: " ++ e ++ ".") }
  | none =>
    { s with error := some "Could not apply crop. Please ensure an image is loaded and a crop area is selected." }

/-- Clicking Apply Crop: the handler runs only when the button is
enabled; a click on the disabled button does nothing. -/
def applyCropClick (s : EditorState) (render : Except String ImageState) : EditorState :=
  if applyCropEnabled s then handleApplyCrop s render else s

/-- A state holding one image with a completed crop of width 0. -/
def zeroCropState : EditorState :=
  { initialState with
    imageHistory := [imgA]
    historyIndex := 0
    isCropping := true
    imageToCropSrc := some "data-a"
    imageToCropMimeType := some "image/png"
    completedCrop := some ⟨0, 0, 0, 50⟩ }

/-- Counterexample to claim C2 as stated: at a completed crop of zero
width, attempting to apply the crop leaves the state entirely unchanged
— in particular `error` stays `none`, so no ValidationError (or any
user-visible message) is raised; the rejection happens silently through
the disabled Apply button. -/
theorem claim_C2_counterexample :
    applyCropClick zeroCropState (.ok imgB) = zeroCropState ∧
    (applyCropClick zeroCropState (.ok imgB)).error = none ∧
    (applyCropClick zeroCropState (.ok imgB)).imageHistory.length = 1 := by
  refine ⟨?_, ?_, ?_⟩ <;> rfl

/-- Claim C2 (amended): for every completed crop region whose width or
height is zero, the apply-crop action is a no-op — no entry is pushed
(history unchanged) and no error is set, the Apply button being
disabled. -/
theorem claim_C2_amended (s : EditorState) (render : Except String ImageState)
    (c : PixelCrop) (hc : s.completedCrop = some c)
    (hz : c.width = 0 ∨ c.height = 0) :
    applyCropClick s render = s := by
  rw [applyCropClick, if_neg]
  rw [applyCropEnabled, hc]
  rcases hz with h | h <;> simp [h]

/-- Witness for the amended C2 at the zero-width crop state. -/
theorem claim_C2_witness :
    zeroCropState.completedCrop = some ⟨0, 0, 0, 50⟩ ∧
    applyCropClick zeroCropState (.ok imgB) = zeroCropState :=
  ⟨rfl, claim_C2_amended zeroCropState (.ok imgB) ⟨0, 0, 0, 50⟩ rfl (Or.inl rfl)⟩

/-! ## Remote edit operations and the logo compositor -/

/-- `handleEditImage`: requires a current image and a non-blank prompt;
on success pushes the returned raster under the current mime type and
resets the editing state; on a remote failure only sets the error. -/
def handleEditImage (s : EditorState) (remote : Except String (List RGBA)) : EditorState :=
  match currentImage s with
  | none => { s with error := some "Please upload an image and enter a prompt." }
  | some img =>
    if s.prompt.trim = "" then
      { s with error := some "Please upload an image and enter a prompt." }
    else
      match remote with
      | .ok d =>
        resetEditingStates
          (pushToHistory { s with error := none } { data := d, mimeType := img.mimeType })
      | .error e =>
        { s with error := some ("Failed to edit image: " ++ e ++ ". Please try again.") }

/-- `handleRemoveBackground`: like `handleEditImage` but without the
prompt requirement. -/
def handleRemoveBackground (s : EditorState) (remote : Except String (List RGBA)) : EditorState :=
  match currentImage s with
  | none => { s with error := some "Please upload an image to remove its background." }
  | some img =>
    match remote with
    | .ok d =>
      resetEditingStates
        (pushToHistory { s with error := none } { data := d, mimeType := img.mimeType })
    | .error e =>
      { s with error := some ("Failed to remove background: " ++ e ++ ". Please try again.") }

/-- The geometry computed by `handleApplyLogoOverlay` before
`ctx.drawImage(logo, logoX, logoY, scaledLogoWidth, scaledLogoHeight)`:
top-left at `(positionPercent.x/100 × baseWidth,
positionPercent.y/100 × baseHeight)`, rendered size the logo's natural
size times `logoScale`. -/
def logoDrawRect (baseW baseH natW natH scale : ℚ) (pos : ℚ × ℚ) : ℚ × ℚ × ℚ × ℚ :=
  (pos.1 / 100 * baseW, pos.2 / 100 * baseH, natW * scale, natH * scale)

/-- Modelled from the spec (for refinement comparison only): the logo
compositor contract of §4.5 — rendered width/height are the natural
width/height times `relativeScale`, and the top-left draw position is
`(positionPercent.x/100 × baseWidth, positionPercent.y/100 ×
baseHeight)`. -/
def specLogoPlacementRect (baseW baseH natW natH relativeScale : ℚ)
    (positionPercent : ℚ × ℚ) : ℚ × ℚ × ℚ × ℚ :=
  (positionPercent.1 / 100 * baseW, positionPercent.2 / 100 * baseH,
   natW * relativeScale, natH * relativeScale)

/-- `handleApplyLogoOverlay`: requires a current image and an uploaded
logo; composites the logo onto the base raster at `logoDrawRect` (the
canvas `drawImage` primitive is the `draw` oracle), pushes the result,
and hides the overlay — the logo payload, scale and position are NOT
reset. -/
def handleApplyLogoOverlay (draw : List RGBA → ℚ × ℚ × ℚ × ℚ → List RGBA)
    (baseW baseH natW natH : ℚ) (s : EditorState) : EditorState :=
  match currentImage s, s.logoBase64, s.logoMimeType with
  | some img, some _, some _ =>
    let rect := logoDrawRect baseW baseH natW natH s.logoScale s.logoPosition
    let s1 := pushToHistory { s with error := none }
      { data := draw img.data rect, mimeType := img.mimeType }
    { s1 with showLogoOverlay := false }
  | _, _, _ =>
    { s with error := some "Please ensure a main image and a logo are loaded before applying the overlay." }

/-- Claim C7: the compositor geometry agrees with the spec's contract
(top-left anchored at the percentage offsets, rendered size natural ×
relativeScale), and at baseWidth = baseHeight = 1000, position (50,50),
relativeScale 0.3 and a 200×100 logo the logo draws at (500, 500) with
rendered size 60×30. -/
theorem claim_C7_compositor :
    (∀ (baseW baseH natW natH scale : ℚ) (pos : ℚ × ℚ),
      logoDrawRect baseW baseH natW natH scale pos
        = specLogoPlacementRect baseW baseH natW natH scale pos) ∧
    logoDrawRect 1000 1000 200 100 (3/10) (50, 50) = (500, 500, 60, 30) := by
  refine ⟨fun _ _ _ _ _ _ => rfl, ?_⟩
  rw [logoDrawRect]
  norm_num

/-- The transient logo overlay state is at its cleared defaults. -/
def OverlayCleared (s : EditorState) : Prop :=
  s.logoBase64 = none ∧ s.logoMimeType = none ∧ s.showLogoOverlay = false ∧
    s.logoScale = 3/10 ∧ s.logoPosition = (50, 50)

instance (s : EditorState) : Decidable (OverlayCleared s) := by
  unfold OverlayCleared; infer_instance

/-- A state with one image and an un-baked logo placed at a custom
scale and position. -/
def logoPlacedState : EditorState :=
  { initialState with
    imageHistory := [imgA]
    historyIndex := 0
    logoBase64 := some "logo-payload"
    logoMimeType := some "image/png"
    showLogoOverlay := true
    logoScale := 1/2
    logoPosition := (10, 20) }

/-- Counterexample to claim C3 as stated: the logo bake-in
(`handleApplyLogoOverlay`) pushes a new history entry but does NOT clear
the transient overlay state — the logo's base64 payload, scale and
position all survive the push (only `showLogoOverlay` is set to
`false`). -/
theorem claim_C3_counterexample :
    (handleApplyLogoOverlay (fun d _ => d) 100 100 10 10 logoPlacedState).imageHistory.length
      = 2 ∧
    (handleApplyLogoOverlay (fun d _ => d) 100 100 10 10 logoPlacedState).logoBase64
      = some "logo-payload" ∧
    (handleApplyLogoOverlay (fun d _ => d) 100 100 10 10 logoPlacedState).logoScale = 1/2 ∧
    (handleApplyLogoOverlay (fun d _ => d) 100 100 10 10 logoPlacedState).logoPosition
      = (10, 20) ∧
    ¬ OverlayCleared (handleApplyLogoOverlay (fun d _ => d) 100 100 10 10 logoPlacedState) := by
  refine ⟨rfl, rfl, rfl, rfl, ?_⟩
  intro h
  exact Option.noConfusion h.1

/-- Claim C3 (amended): the pushes performed by upload, AI edit,
background removal, crop and filter application all clear the transient
overlay state; the logo bake-in push instead only hides the overlay,
retaining the logo payload, its scale and its position. -/
theorem claim_C3_amended :
    (∀ (s : EditorState) (img : ImageState), OverlayCleared (handleImageUpload s img)) ∧
    (∀ (s : EditorState) (img : ImageState) (d : List RGBA),
      currentImage s = some img → s.prompt.trim ≠ "" →
      OverlayCleared (handleEditImage s (.ok d))) ∧
    (∀ (s : EditorState) (img : ImageState) (d : List RGBA),
      currentImage s = some img →
      OverlayCleared (handleRemoveBackground s (.ok d))) ∧
    (∀ (s : EditorState) (img : ImageState),
      applyCropEnabled s = true →
      OverlayCleared (applyCropClick s (.ok img))) ∧
    (∀ (s : EditorState) (img : ImageState) (name : String),
      currentImage s = some img →
      OverlayCleared (applyFilterToImage s name)) ∧
    (∀ (draw : List RGBA → ℚ × ℚ × ℚ × ℚ → List RGBA) (baseW baseH natW natH : ℚ)
      (s : EditorState) (img : ImageState) (l m : String),
      currentImage s = some img → s.logoBase64 = some l → s.logoMimeType = some m →
      (handleApplyLogoOverlay draw baseW baseH natW natH s).showLogoOverlay = false ∧
      (handleApplyLogoOverlay draw baseW baseH natW natH s).logoBase64 = s.logoBase64 ∧
      (handleApplyLogoOverlay draw baseW baseH natW natH s).logoScale = s.logoScale ∧
      (handleApplyLogoOverlay draw baseW baseH natW natH s).logoPosition = s.logoPosition) := by
  refine ⟨?_, ?_, ?_, ?_, ?_, ?_⟩
  · intro s img
    exact ⟨rfl, rfl, rfl, rfl, rfl⟩
  · intro s img d hcur hp
    rw [handleEditImage, hcur]
    simp only [if_neg hp]
    exact ⟨rfl, rfl, rfl, rfl, rfl⟩
  · intro s img d hcur
    rw [handleRemoveBackground, hcur]
    exact ⟨rfl, rfl, rfl, rfl, rfl⟩
  · intro s img hen
    rw [applyCropClick, if_pos hen]
    rw [applyCropEnabled] at hen
    rw [handleApplyCrop]
    rcases hc : s.completedCrop with - | c
    · rw [hc] at hen; exact absurd hen (by simp)
    · exact ⟨rfl, rfl, rfl, rfl, rfl⟩
  · intro s img name hcur
    rw [applyFilterToImage, hcur]
    exact ⟨rfl, rfl, rfl, rfl, rfl⟩
  · intro draw baseW baseH natW natH s img l m hcur hl hm
    rw [handleApplyLogoOverlay, hcur, hl, hm]
    exact ⟨rfl, rfl, rfl, rfl⟩

/-- Witness for the amended C3 at concrete states. -/
theorem claim_C3_witness :
    OverlayCleared (handleImageUpload logoPlacedState imgB) ∧
    (currentImage logoPlacedState = some imgA ∧
      OverlayCleared (applyFilterToImage logoPlacedState "sepia")) ∧
    (handleApplyLogoOverlay (fun d _ => d) 100 100 10 10 logoPlacedState).logoScale
      = logoPlacedState.logoScale := by
  have hcur : currentImage logoPlacedState = some imgA := rfl
  refine ⟨claim_C3_amended.1 logoPlacedState imgB, ⟨hcur, ?_⟩, ?_⟩
  · exact claim_C3_amended.2.2.2.2.1 logoPlacedState imgA "sepia" hcur
  · exact (claim_C3_amended.2.2.2.2.2 (fun d _ => d) 100 100 10 10 logoPlacedState imgA
      "logo-payload" "image/png" hcur rfl rfl).2.2.1

/-! ## Resampler (`resizeImageBase64` in utils.ts) -/

/-- The fixed `RESOLUTION_MAP`: `original` maps to the `-1` sentinel
(no resizing), the named presets to their max dimension; any other key
is absent. -/
def RESOLUTION_MAP (key : String) : Option ℤ :=
  if key = "original" then some (-1)
  else if key = "720p" then some 1280
  else if key = "1080p" then some 1920
  else if key = "4K" then some 3840
  else none

/-- JS `Math.round` on a non-negative value: floor of `q + 1/2`. -/
def jsRound (q : ℚ) : ℤ := ⌊q + 1/2⌋

/-- The final guard `if (newWidth <= 0) newWidth = 1`. -/
def clampPos (n : ℤ) : ℤ := if n ≤ 0 then 1 else n

/-- The dimension computation of `resizeImageBase64` before rounding:
scale down to the max dimension when either axis exceeds it, scale up
when both are strictly below it, otherwise keep the source size; the
aspect ratio is `width / height`. -/
def resizeDimsQ (w h : ℕ) (maxD : ℤ) : ℚ × ℚ :=
  if (maxD : ℚ) < w ∨ (maxD : ℚ) < h then
    if (h : ℚ) / (maxD : ℚ) < (w : ℚ) / (maxD : ℚ) then
      ((maxD : ℚ), (maxD : ℚ) / ((w : ℚ) / (h : ℚ)))
    else ((maxD : ℚ) * ((w : ℚ) / (h : ℚ)), (maxD : ℚ))
  else if (w : ℚ) < maxD ∧ (h : ℚ) < maxD then
    if (w : ℚ) / (maxD : ℚ) < (h : ℚ) / (maxD : ℚ) then
      ((maxD : ℚ) * ((w : ℚ) / (h : ℚ)), (maxD : ℚ))
    else ((maxD : ℚ), (maxD : ℚ) / ((w : ℚ) / (h : ℚ)))
  else ((w : ℚ), (h : ℚ))

/-- The integer output dimensions: round to nearest, then force a
positive minimum of 1 pixel per axis. -/
def resizeDims (w h : ℕ) (maxD : ℤ) : ℤ × ℤ :=
  (clampPos (jsRound (resizeDimsQ w h maxD).1),
   clampPos (jsRound (resizeDimsQ w h maxD).2))

/-- The observable outcome of `resizeImageBase64`: either the input
base64 payload unchanged, or a re-render at the computed dimensions. -/
inductive ResizeOutcome
  | unchanged (data : String)
  | resized (w h : ℤ)
deriving DecidableEq, Repr

/-- `resizeImageBase64(base64Data, mimeType, resolutionKey)`: an absent
map entry or the `-1` sentinel resolves immediately with the input
payload; otherwise the image is decoded (`decodeOk`), a 2D context is
acquired (`ctx2dAvailable`), and the image is re-rendered at
`resizeDims`; the two environment failures reject with the source's
error messages. -/
def resizeImageBase64 (ctx2dAvailable decodeOk : Bool) (base64Data : String)
    (w h : ℕ) (resolutionKey : String) : Except String ResizeOutcome :=
  match RESOLUTION_MAP resolutionKey with
  | none => .ok (.unchanged base64Data)
  | some t =>
    if t = -1 then .ok (.unchanged base64Data)
    else if decodeOk = false then .error "Failed to load image for resizing"
    else if ctx2dAvailable = false then .error "Could not get canvas 2D context for resizing."
    else .ok (.resized (resizeDims w h t).1 (resizeDims w h t).2)

/-- `jsRound` is within a half of its argument (upper side). -/
theorem jsRound_le (q : ℚ) : (jsRound q : ℚ) ≤ q + 1/2 := Int.floor_le _

/-- `jsRound` is within a half of its argument (lower side). -/
theorem lt_jsRound (q : ℚ) : q - 1/2 < (jsRound q : ℚ) := by
  have h := Int.lt_floor_add_one (q + 1/2)
  rw [jsRound]
  push_cast at h ⊢
  linarith

/-- `jsRound` fixes integers. -/
theorem jsRound_intCast (n : ℤ) : jsRound (n : ℚ) = n := by
  rw [jsRound, add_comm, Int.floor_add_int]
  norm_num

/-- Rounding then clamping a positive rational bounded by `M` stays
bounded by `M` and moves the value by at most one pixel. -/
theorem clampPos_jsRound_close (q : ℚ) (M : ℤ) (hM : 1 ≤ M)
    (hq0 : 0 < q) (hqM : q ≤ (M : ℚ)) :
    clampPos (jsRound q) ≤ M ∧ |((clampPos (jsRound q) : ℤ) : ℚ) - q| ≤ 1 := by
  have h1 := jsRound_le q
  have h2 := lt_jsRound q
  by_cases hr : jsRound q ≤ 0
  · rw [clampPos, if_pos hr]
    have hq1 : q < 1 := by
      have : (jsRound q : ℚ) ≤ 0 := by exact_mod_cast hr
      linarith
    refine ⟨by omega, ?_⟩
    rw [abs_le]
    constructor
    · push_cast; linarith
    · push_cast; linarith
  · rw [clampPos, if_neg hr]
    constructor
    · have hlt : (jsRound q : ℚ) < (M : ℚ) + 1 := by linarith
      have : jsRound q < M + 1 := by exact_mod_cast hlt
      omega
    · rw [abs_le]
      constructor <;> linarith

/-- Clamped rounding fixes positive integers. -/
theorem clampPos_jsRound_intCast (M : ℤ) (hM : 1 ≤ M) :
    clampPos (jsRound (M : ℚ)) = M := by
  rw [jsRound_intCast, clampPos, if_neg (by omega)]

/-- Claim C4: the preset table maps 720p/1080p/4K to max dimensions
1280/1920/3840; the resampler re-renders at `resizeDims` whenever a
non-sentinel preset is chosen; and for any source strictly larger than
the max dimension on both axes, the larger output axis equals the max
dimension exactly while both axes stay within one pixel of the exact
aspect-preserving target. -/
theorem claim_C4_resize :
    RESOLUTION_MAP "720p" = some 1280 ∧
    RESOLUTION_MAP "1080p" = some 1920 ∧
    RESOLUTION_MAP "4K" = some 3840 ∧
    (∀ (key : String) (t : ℤ) (data : String) (w h : ℕ),
      RESOLUTION_MAP key = some t → t ≠ -1 →
      resizeImageBase64 true true data w h key
        = .ok (.resized (resizeDims w h t).1 (resizeDims w h t).2)) ∧
    (∀ (w h : ℕ) (maxD : ℤ), 1 ≤ maxD → maxD < (w : ℤ) → maxD < (h : ℤ) →
      max (resizeDims w h maxD).1 (resizeDims w h maxD).2 = maxD ∧
      |((resizeDims w h maxD).1 : ℚ) - (maxD : ℚ) * w / ((max w h : ℕ) : ℚ)| ≤ 1 ∧
      |((resizeDims w h maxD).2 : ℚ) - (maxD : ℚ) * h / ((max w h : ℕ) : ℚ)| ≤ 1) := by
  refine ⟨rfl, rfl, rfl, ?_, ?_⟩
  · intro key t data w h hmap ht
    rw [resizeImageBase64, hmap]
    simp only [if_neg ht]
    rfl
  · intro w h maxD hm hw hh
    have hMQ : (0 : ℚ) < (maxD : ℚ) := by exact_mod_cast (by omega : (0 : ℤ) < maxD)
    have hM1 : (1 : ℚ) ≤ (maxD : ℚ) := by exact_mod_cast hm
    have hWQ : (maxD : ℚ) < (w : ℚ) := by exact_mod_cast hw
    have hHQ : (maxD : ℚ) < (h : ℚ) := by exact_mod_cast hh
    have hW0 : (0 : ℚ) < (w : ℚ) := by linarith
    have hH0 : (0 : ℚ) < (h : ℚ) := by linarith
    have hcast : ((max w h : ℕ) : ℚ) = max (w : ℚ) (h : ℚ) := by
      push_cast
      rfl
    by_cases hcond : (h : ℚ) / (maxD : ℚ) < (w : ℚ) / (maxD : ℚ)
    · have hhw : (h : ℚ) < (w : ℚ) := by
        rw [div_lt_div_iff_of_pos_right hMQ] at hcond
        exact hcond
      have hmax : max (w : ℚ) (h : ℚ) = (w : ℚ) := max_eq_left (le_of_lt hhw)
      have hQ : resizeDimsQ w h maxD
          = ((maxD : ℚ), (maxD : ℚ) / ((w : ℚ) / (h : ℚ))) := by
        rw [resizeDimsQ, if_pos (Or.inl hWQ), if_pos hcond]
      have hq2 : (maxD : ℚ) / ((w : ℚ) / (h : ℚ)) = (maxD : ℚ) * h / w := by
        rw [div_div_eq_mul_div]
      have hq2pos : 0 < (maxD : ℚ) * h / w := by positivity
      have hq2le : (maxD : ℚ) * h / w ≤ (maxD : ℚ) := by
        rw [div_le_iff hW0]
        nlinarith
      have hfst : (resizeDims w h maxD).1 = maxD := by
        rw [resizeDims, hQ]
        exact clampPos_jsRound_intCast maxD hm
      obtain ⟨hle, hclose⟩ :=
        clampPos_jsRound_close ((maxD : ℚ) * h / w) maxD hm hq2pos hq2le
      have hsnd : (resizeDims w h maxD).2
          = clampPos (jsRound ((maxD : ℚ) * h / w)) := by
        rw [resizeDims, hQ]
        simp only [hq2]
      refine ⟨?_, ?_, ?_⟩
      · rw [hfst, hsnd]
        exact max_eq_left hle
      · rw [hfst, hcast, hmax]
        rw [mul_div_assoc, div_self (ne_of_gt hW0), mul_one]
        simp
      · rw [hsnd, hcast, hmax]
        exact hclose
    · have hwh : (w : ℚ) ≤ (h : ℚ) := by
        rw [not_lt, div_le_div_iff_of_pos_right hMQ] at hcond
        exact hcond
      have hmax : max (w : ℚ) (h : ℚ) = (h : ℚ) := max_eq_right hwh
      have hQ : resizeDimsQ w h maxD
          = ((maxD : ℚ) * ((w : ℚ) / (h : ℚ)), (maxD : ℚ)) := by
        rw [resizeDimsQ, if_pos (Or.inl hWQ), if_neg hcond]
      have hq1 : (maxD : ℚ) * ((w : ℚ) / (h : ℚ)) = (maxD : ℚ) * w / h := by
        rw [mul_div_assoc]
      have hq1pos : 0 < (maxD : ℚ) * w / h := by positivity
      have hq1le : (maxD : ℚ) * w / h ≤ (maxD : ℚ) := by
        rw [div_le_iff hH0]
        nlinarith
      have hsnd : (resizeDims w h maxD).2 = maxD := by
        rw [resizeDims, hQ]
        exact clampPos_jsRound_intCast maxD hm
      obtain ⟨hle, hclose⟩ :=
        clampPos_jsRound_close ((maxD : ℚ) * w / h) maxD hm hq1pos hq1le
      have hfst : (resizeDims w h maxD).1
          = clampPos (jsRound ((maxD : ℚ) * w / h)) := by
        rw [resizeDims, hQ]
        simp only [hq1]
      refine ⟨?_, ?_, ?_⟩
      · rw [hfst, hsnd]
        exact max_eq_right hle
      · rw [hfst, hcast, hmax]
        exact hclose
      · rw [hsnd, hcast, hmax]
        rw [mul_div_assoc, div_self (ne_of_gt hH0), mul_one]
        simp

/-- Witness for C4: a 4000×3000 source at the 720p preset comes out at
1280×960 — the larger axis is exactly 1280 and 960 is within one pixel
of the exact `1280 × 3000 / 4000`. -/
theorem claim_C4_witness :
    RESOLUTION_MAP "720p" = some 1280 ∧
    resizeImageBase64 true true "payload" 4000 3000 "720p"
      = .ok (.resized 1280 960) ∧
    max (resizeDims 4000 3000 1280).1 (resizeDims 4000 3000 1280).2 = 1280 := by
  have h := (claim_C4_resize.2.2.2.2 4000 3000 1280 (by omega) (by omega) (by omega)).1
  refine ⟨rfl, ?_, h⟩
  have heq := claim_C4_resize.2.2.2.1 "720p" 1280 "payload" 4000 3000 rfl (by omega)
  rw [heq]
  have h1 : (resizeDims 4000 3000 1280).1 = 1280 := by
    rw [resizeDims, resizeDimsQ]
    norm_num [jsRound, clampPos]
  have h2 : (resizeDims 4000 3000 1280).2 = 960 := by
    rw [resizeDims, resizeDimsQ]
    norm_num [jsRound, clampPos]
  rw [h1, h2]

/-- Claim C10: an unrecognized resolution key resolves successfully with
the input payload unchanged — no error is possible on that path,
whatever the environment flags — and coincides with the `original`
sentinel's behaviour. -/
theorem claim_C10_unknown_preset (key : String)
    (h1 : key ≠ "original") (h2 : key ≠ "720p") (h3 : key ≠ "1080p") (h4 : key ≠ "4K")
    (ctx2dAvailable decodeOk : Bool) (data : String) (w h : ℕ) :
    resizeImageBase64 ctx2dAvailable decodeOk data w h key = .ok (.unchanged data) ∧
    resizeImageBase64 ctx2dAvailable decodeOk data w h key
      = resizeImageBase64 ctx2dAvailable decodeOk data w h "original" := by
  have hmap : RESOLUTION_MAP key = none := by
    rw [RESOLUTION_MAP, if_neg h1, if_neg h2, if_neg h3, if_neg h4]
  constructor
  · rw [resizeImageBase64, hmap]
  · rw [resizeImageBase64, hmap]
    rfl

/-- Witness for C10 at the key `"foo"`. -/
theorem claim_C10_witness :
    resizeImageBase64 false false "payload" 9 9 "foo" = .ok (.unchanged "payload") :=
  (claim_C10_unknown_preset "foo" (by decide) (by decide) (by decide) (by decide)
    false false "payload" 9 9).1

/-! ## Batch mockup generation (`MerchMockupGenerator`) -/

/-- A generated mockup: base64 payload, the mime type returned by the
service, and the scenario prompt that produced it.  (The random `id`
field is not modelled: nothing reads it back.) -/
structure Mockup where
  base64 : String
  mimeType : String
  prompt : String
deriving DecidableEq, Repr

/-- The fixed list of product scenario prompts. -/
def productPrompts : List String :=
  ["A white t-shirt with the logo centered on the chest, worn by a diverse group of people in a city park, soft lighting.",
   "A sleek black ceramic coffee mug with the logo prominently displayed, on a wooden desk with a laptop and plant.",
   "A comfortable navy blue hoodie with the logo embroidered on the left chest, model standing against a brick wall.",
   "A stylish tote bag made of natural canvas with the logo printed large on one side, carried by a person walking in a market.",
   "A custom baseball cap with the logo on the front, being worn by someone enjoying an outdoor activity like hiking.",]

/-- One iteration of the `for (const prompt of productPrompts)` loop: a
successful call appends the mockup, a failure only replaces the error
message and moves on. -/
def mockupStep (gen : String → Except String (String × String))
    (acc : List Mockup × Option String) (p : String) : List Mockup × Option String :=
  match gen p with
  | .ok r => (acc.1 ++ [⟨r.1, r.2, p⟩], acc.2)
  | .error e =>
    (acc.1,
     some ("Failed to generate some mockups: " ++ e ++ ". Please check your logo and try again."))

/-- `handleGenerateMockups`: clear the error and the old mockups, then
run every scenario in order (the remote `generateImageWithLogo` call is
the `gen` oracle), collecting successes and recording a warning on any
failure. -/
def handleGenerateMockups (gen : String → Except String (String × String)) :
    List Mockup × Option String :=
  productPrompts.foldl (mockupStep gen) ([], none)

/-- The collected mockups of the loop are the successes of all prompts,
in prompt order, appended to the accumulator. -/
theorem mockupFold_fst (gen : String → Except String (String × String)) :
    ∀ (l : List String) (acc : List Mockup × Option String),
      (l.foldl (mockupStep gen) acc).1
        = acc.1 ++ l.filterMap (fun p =>
            match gen p with
            | .ok r => some ⟨r.1, r.2, p⟩
            | .error _ => none) := by
  intro l
  induction l with
  | nil => intro acc; simp
  | cons p rest ih =>
    intro acc
    rw [List.foldl_cons, List.filterMap_cons, ih]
    rcases hg : gen p with e | r
    · rw [mockupStep, hg]
    · rw [mockupStep, hg]
      simp

/-- The error slot of the loop is occupied exactly when it started
occupied or some prompt failed. -/
theorem mockupFold_snd (gen : String → Except String (String × String)) :
    ∀ (l : List String) (acc : List Mockup × Option String),
      ((l.foldl (mockupStep gen) acc).2.isSome = true ↔
        (acc.2.isSome = true ∨ ∃ p ∈ l, ∃ e, gen p = .error e)) := by
  intro l
  induction l with
  | nil => intro acc; simp
  | cons p rest ih =>
    intro acc
    rw [List.foldl_cons, ih]
    rcases hg : gen p with e | r
    · constructor
      · intro _
        exact Or.inr ⟨p, List.mem_cons_self p rest, e, hg⟩
      · intro _
        left
        rw [mockupStep, hg]
        rfl
    · have hstep : (mockupStep gen acc p).2 = acc.2 := by rw [mockupStep, hg]
      rw [hstep]
      constructor
      · rintro (ha | ⟨q, hq, e2, hgen⟩)
        · exact Or.inl ha
        · exact Or.inr ⟨q, List.mem_cons_of_mem p hq, e2, hgen⟩
      · rintro (ha | ⟨q, hq, e2, hgen⟩)
        · exact Or.inl ha
        · rcases List.mem_cons.mp hq with hq | hq
          · rw [hq, hg] at hgen
            exact Except.noConfusion hgen
          · exact Or.inr ⟨q, hq, e2, hgen⟩

/-- Claim C9: one failing scenario does not abort the rest — the result
list is exactly the successes of ALL prompts in order (failures
omitted), and a warning message is set whenever at least one scenario
failed. -/
theorem claim_C9_batch_mockups (gen : String → Except String (String × String)) :
    (handleGenerateMockups gen).1
      = productPrompts.filterMap (fun p =>
          match gen p with
          | .ok r => some ⟨r.1, r.2, p⟩
          | .error _ => none) ∧
    ((∃ p ∈ productPrompts, ∃ e, gen p = .error e) →
      (handleGenerateMockups gen).2.isSome = true) := by
  constructor
  · rw [handleGenerateMockups, mockupFold_fst]
    rfl
  · intro hex
    rw [handleGenerateMockups, mockupFold_snd]
    exact Or.inr hex

/-- Witness for C9: a generator that always fails still reaches its
implication's conclusion. -/
theorem claim_C9_witness :
    (∃ p ∈ productPrompts, ∃ e,
      (fun (_ : String) => (Except.error "network" : Except String (String × String))) p
        = .error e) ∧
    (handleGenerateMockups fun _ => .error "network").2.isSome = true := by
  have hex : ∃ p ∈ productPrompts, ∃ e,
      (fun (_ : String) => (Except.error "network" : Except String (String × String))) p
        = .error e := by
    refine ⟨productPrompts.head (by decide), ?_, "network", rfl⟩
    exact List.head_mem (by decide)
  exact ⟨hex, (claim_C9_batch_mockups fun _ => .error "network").2 hex⟩
